import Mathlib

/-!
Verification of the CallbackDataBus key registry (callbackDataBus.js).

A shallow embedding of the request-coalescing result cache implemented in
`src/callbackDataBus.js`.  The module keeps a process-wide map
`CALLBACK_QUEUE` from keys to per-key records holding the pending callback
list, an optional cached `(err, data)` result with an expiration stamp, and
an optional recurring-fetch configuration.

Modelling decisions, each mirroring the JavaScript source:

* The registry is a function `K → Option (KeyRecord …)`; keys, callbacks,
  error payloads, data payloads and fetch functions are opaque type
  parameters (the JS code never inspects them).
* `process.nextTick(cb(err, data))` is modelled by appending the triple
  `(cb, err, data)` to a FIFO `scheduled` list carried in the machine
  state; the claim that callbacks never run synchronously becomes the
  statement that operations only ever append to this list.
* `setTimeout` is modelled by appending a `Timer` (fresh numeric id, delay,
  action tag) to a `timers` list; `clearTimeout h` removes the timer whose
  id is `h`.  Timer ids are drawn from a `nextTimerId` counter.
* The wall clock `new Date().getTime()` is an explicit `now : Nat` argument
  to every operation that reads it.
* JS `undefined`/`null` field states are tracked exactly: the `expiration`
  field is `Option (Option Nat)` — `none` is an absent (`undefined`) field,
  `some none` is the literal `null` (retain indefinitely), `some (some t)`
  an absolute timestamp.  The JS guard `expiration === null || expiration
  > now` is false on `undefined` (since `undefined > now` is false), and
  `expLive` reproduces that.
* JS truthiness of the `timeout` argument (`if (timeout)`) is
  `timeoutTruthy`: `undefined` (here `none`) and `0` are falsy, every other
  integer truthy.  Likewise `fetchInterval` truthiness.
* A JS `throw` is modelled by returning `some e : Option (BusErr K)`
  alongside the (unchanged up to that point) state.
* Invoking a user-supplied `fetchFunction` is an external effect; the model
  records it by appending `(fetchFunction, key)` to a `fetchCalls` log
  (the key determines the completion callback the code passes along, which
  is embedded separately as `scheduleFetchCompletion`).
-/

namespace CDB

/-- The `results` object stored on a key record: the raw `(err, data)` pair
handed to `completeFetch`. -/
structure Results (ε δ : Type) where
  err : ε
  data : δ
deriving DecidableEq, Repr

/-- A per-key record of `CALLBACK_QUEUE` (see the comment block at the top
of callbackDataBus.js).  Absent JS fields are `none`. -/
structure KeyRecord (ε δ κ φ : Type) where
  callbacks : List κ
  expiration : Option (Option Nat) := none
  fetchInterval : Option Nat := none
  fetchFunction : Option φ := none
  fetchTimer : Option Nat := none
  results : Option (Results ε δ) := none
deriving DecidableEq, Repr

/-- What an armed `setTimeout` will do when it fires: run
`expireCachedData key`, or re-enter the `scheduleFetch` cycle for `key`. -/
inductive TimerAction (K : Type) where
  | expire (key : K)
  | refetchArm (key : K)
deriving DecidableEq, Repr

/-- An armed timer: the handle `setTimeout` returned, its delay in
milliseconds, and its action. -/
structure Timer (K : Type) where
  id : Nat
  delay : Nat
  action : TimerAction K
deriving DecidableEq, Repr

/-- The two `throw` sites of the source plus the implicit JS `TypeError`
that a field write on a missing record would raise. -/
inductive BusErr (K : Type) where
  | noCallbacks (key : K)
  | schedulePending (key : K)
  | recordMissing (key : K)
deriving DecidableEq, Repr

/-- Whole-machine state: the `CALLBACK_QUEUE` registry, the FIFO of
callback invocations deferred via `process.nextTick`, the armed timers,
the timer-handle counter, and the log of `fetchFunction` invocations. -/
structure BusState (K ε δ κ φ : Type) where
  queue : K → Option (KeyRecord ε δ κ φ)
  scheduled : List (κ × ε × δ) := []
  timers : List (Timer K) := []
  nextTimerId : Nat := 0
  fetchCalls : List (φ × K) := []

variable {K ε δ κ φ : Type} [DecidableEq K]

/-- Point update of the registry (JS `CALLBACK_QUEUE[key] = rec` or a field
assignment on an existing record). -/
def setKey (q : K → Option (KeyRecord ε δ κ φ)) (key : K)
    (rec : KeyRecord ε δ κ φ) : K → Option (KeyRecord ε δ κ φ) :=
  fun k => if k = key then some rec else q k

/-- JS `delete CALLBACK_QUEUE[key]`. -/
def delKey (q : K → Option (KeyRecord ε δ κ φ)) (key : K) :
    K → Option (KeyRecord ε δ κ φ) :=
  fun k => if k = key then none else q k

/-- The liveness test `expiration === null || expiration > now` of
`cachedDataFor`: `null` means live forever, a timestamp is live while
strictly in the future, an absent field compares false. -/
def expLive (now : Nat) (e : Option (Option Nat)) : Bool :=
  match e with
  | some none => true
  | some (some t) => decide (now < t)
  | none => false

/-- JS truthiness of the `timeout` argument of `completeFetch`:
`undefined` and `0` are falsy. -/
def timeoutTruthy (t : Option Int) : Bool :=
  match t with
  | none => false
  | some v => decide (v ≠ 0)

/-- JS truthiness of the `fetchInterval` field in `completeFetch`. -/
def intervalTruthy (i : Option Nat) : Bool :=
  match i with
  | none => false
  | some v => decide (v ≠ 0)

/-- JS `sizeOfCallbackQueue(key)`: the number of callbacks queued for `key`,
0 when the key has no record. -/
def sizeOfCallbackQueue (s : BusState K ε δ κ φ) (key : K) : Nat :=
  match s.queue key with
  | some rec => rec.callbacks.length
  | none => 0

/-- JS `cachedDataFor(key)`: returns the stored results while live, and as a
side effect lazily deletes a stale `results`/`expiration` pair (the record
itself is left in place: the prune is commented out in the source). -/
def cachedDataFor (now : Nat) (s : BusState K ε δ κ φ) (key : K) :
    Option (Results ε δ) × BusState K ε δ κ φ :=
  match s.queue key with
  | none => (none, s)
  | some rec =>
    match rec.results with
    | none => (none, s)
    | some res =>
      if expLive now rec.expiration then
        (some res, s)
      else
        (none, { s with
          queue := setKey s.queue key { rec with results := none, expiration := none } })

/-- The pure projection of `cachedDataFor`: the live cached result of
`key`, if any.  `cachedDataFor` returns exactly this (proved below) and
mutates only when it returns `none` on a stale entry. -/
def liveCachedResult (now : Nat) (s : BusState K ε δ κ φ) (key : K) :
    Option (Results ε δ) :=
  match s.queue key with
  | none => none
  | some rec =>
    match rec.results with
    | none => none
    | some res => if expLive now rec.expiration then some res else none

/-- JS `registerFetch(key, callback, forceUpdate)`.  Returns the JS boolean
together with the successor state. -/
def registerFetch (now : Nat) (s : BusState K ε δ κ φ) (key : K)
    (callback : κ) (forceUpdate : Bool) : Bool × BusState K ε δ κ φ :=
  let cd := cachedDataFor now s key
  match cd.1, forceUpdate with
  | some res, false =>
    (true, { cd.2 with scheduled := cd.2.scheduled ++ [(callback, res.err, res.data)] })
  | _, _ =>
    match cd.2.queue key with
    | some rec =>
      if rec.callbacks.length > 0 then
        (true, { cd.2 with
          queue := setKey cd.2.queue key { rec with callbacks := rec.callbacks ++ [callback] } })
      else
        (false, { cd.2 with queue := setKey cd.2.queue key { callbacks := [callback] } })
    | none =>
      (false, { cd.2 with queue := setKey cd.2.queue key { callbacks := [callback] } })

/-- JS `completeFetch(key, err, data, timeout)`.  The second component is the
raised error, if any (JS `throw`); on a throw the state is returned
untouched, matching the fact that the source throws before any mutation. -/
def completeFetch (now : Nat) (s : BusState K ε δ κ φ) (key : K)
    (err : ε) (data : δ) (timeout : Option Int) :
    BusState K ε δ κ φ × Option (BusErr K) :=
  match s.queue key with
  | none => (s, some (.noCallbacks key))
  | some rec =>
    if rec.callbacks.length = 0 then
      (s, some (.noCallbacks key))
    else
      -- schedule every queued callback with (err, data) on the nextTick,
      -- in registration order, then clear the callback list
      let s1 : BusState K ε δ κ φ :=
        { s with scheduled := s.scheduled ++ rec.callbacks.map (fun cb => (cb, err, data)) }
      let rec1 := { rec with callbacks := ([] : List κ) }
      -- if there is an auto-fetch interval, arm the refetch timer
      let armed : KeyRecord ε δ κ φ × BusState K ε δ κ φ :=
        if intervalTruthy rec1.fetchInterval then
          ({ rec1 with fetchTimer := some s1.nextTimerId },
           { s1 with
             timers := s1.timers ++
               [⟨s1.nextTimerId, rec1.fetchInterval.getD 0, .refetchArm key⟩],
             nextTimerId := s1.nextTimerId + 1 })
        else (rec1, s1)
      let rec2 := armed.1
      let s2 := armed.2
      if timeoutTruthy timeout then
        let t := (timeout.getD 0)
        if 0 < t then
          -- positive timeout: cache the results, arm the expiration timer
          (( { s2 with
               queue := setKey s2.queue key
                 { rec2 with results := some ⟨err, data⟩,
                             expiration := some (some (now + t.toNat)) },
               timers := s2.timers ++ [⟨s2.nextTimerId, t.toNat, .expire key⟩],
               nextTimerId := s2.nextTimerId + 1 } : BusState K ε δ κ φ), none)
        else
          -- timeout ≤ 0 (but truthy): cache forever, expiration = null
          (( { s2 with
               queue := setKey s2.queue key
                 { rec2 with results := some ⟨err, data⟩,
                             expiration := some none } } : BusState K ε δ κ φ), none)
      else
        -- falsy timeout: delete the whole record
        (( { s2 with queue := delKey s2.queue key } : BusState K ε δ κ φ), none)

/-- JS `expireCachedData(key)`: the body of the expiration timer armed by
`completeFetch`: drops `results` (and only `results`) if present. -/
def expireCachedData (s : BusState K ε δ κ φ) (key : K) : BusState K ε δ κ φ :=
  match s.queue key with
  | none => s
  | some rec =>
    match rec.results with
    | none => s
    | some _ => { s with queue := setKey s.queue key { rec with results := none } }

/-- JS `dataPendingFor(key)`: true iff live cached data exists or callbacks
are queued; inherits the lazy-expiration side effect of `cachedDataFor`. -/
def dataPendingFor (now : Nat) (s : BusState K ε δ κ φ) (key : K) :
    Bool × BusState K ε δ κ φ :=
  let cd := cachedDataFor now s key
  (cd.1.isSome || decide (0 < sizeOfCallbackQueue cd.2 key), cd.2)

/-- JS `scheduleFetch(key, interval, fetchFunction)` with the module's
`nullFn` passed explicitly (the callback payload type is opaque).  Result:
the returned boolean (`none` when the call throws instead of returning),
the successor state, and the raised error if any. -/
def scheduleFetch (now : Nat) (s : BusState K ε δ κ φ) (key : K)
    (interval : Nat) (fetchFunction : φ) (nullFn : κ) :
    Option Bool × BusState K ε δ κ φ × Option (BusErr K) :=
  if 0 < sizeOfCallbackQueue s key then
    (some false, s, none)
  else
    let rs := registerFetch now s key nullFn true
    if rs.1 then
      (none, rs.2, some (.schedulePending key))
    else
      match rs.2.queue key with
      | none => (none, rs.2, some (.recordMissing key))
      | some rec =>
        (some true,
         { rs.2 with
           queue := setKey rs.2.queue key
             { rec with fetchInterval := some interval,
                        fetchFunction := some fetchFunction },
           fetchCalls := rs.2.fetchCalls ++ [(fetchFunction, key)] },
         none)

/-- The completion callback `scheduleFetch` hands to the fetch function:
`function(err, data) { completeFetch(key, err, data, -1); }`. -/
def scheduleFetchCompletion (now : Nat) (key : K) (err : ε) (data : δ)
    (s : BusState K ε δ κ φ) : BusState K ε δ κ φ × Option (BusErr K) :=
  completeFetch now s key err data (some (-1))

/-- JS `cancelScheduleFetch(key)`.  First component is the JS return value:
`some false` on the waiters-nonempty fast-fail path, `none` (JS
`undefined`) on every other path — the source has no other `return`. -/
def cancelScheduleFetch (s : BusState K ε δ κ φ) (key : K) :
    Option Bool × BusState K ε δ κ φ :=
  if 0 < sizeOfCallbackQueue s key then
    (some false, s)
  else
    match s.queue key with
    | none => (none, s)
    | some rec =>
      match rec.fetchTimer with
      | none => (none, s)
      | some h =>
        (none, { s with
          queue := delKey s.queue key,
          timers := s.timers.filter (fun t => t.id ≠ h) })

/-- Whether `key` carries an active recurring-fetch configuration. -/
def hasRefetch (s : BusState K ε δ κ φ) (key : K) : Bool :=
  match s.queue key with
  | some rec => rec.fetchInterval.isSome
  | none => false

/-! Concrete instances used to evaluate the theorems on explicit inputs:
all five type parameters are instantiated with `Nat`. -/

/-- A bus state over `Nat` keys, payloads and handles. -/
abbrev NatBus := BusState Nat Nat Nat Nat Nat

/-- The empty registry. -/
def emptyBus : NatBus := { queue := fun _ => none }

/-- A registry whose only record sits at key `0`. -/
def busWith (rec : KeyRecord Nat Nat Nat Nat) : NatBus :=
  { queue := fun k => if k = 0 then some rec else none }

/-- Key `0` with two queued callbacks (a fetch in flight). -/
def waitersBus : NatBus := busWith { callbacks := [1, 2] }

/-- Key `0` holding an indefinitely live cached result and a full refetch
configuration — the richest record `registerFetch` can overwrite. -/
def richBus : NatBus :=
  busWith { callbacks := [], expiration := some none, fetchInterval := some 100,
            fetchFunction := some 3, fetchTimer := some 7,
            results := some ⟨0, 42⟩ }

/-- Key `0` holding a cached result that expired at time `5` (so stale from
time `5` on), with no waiters and no refetch configuration. -/
def expiredBus : NatBus :=
  busWith { callbacks := [], expiration := some (some 5), results := some ⟨0, 42⟩ }

/-- The record of `timerBus`: armed refetch timer handle `7`, no waiters. -/
def timerRec : KeyRecord Nat Nat Nat Nat :=
  { callbacks := [], fetchInterval := some 100, fetchFunction := some 3,
    fetchTimer := some 7, expiration := some none, results := some ⟨0, 42⟩ }

/-- Key `0` with an armed refetch timer (handle `7`) and no waiters; two
timers are armed process-wide. -/
def timerBus : NatBus :=
  { busWith timerRec with
    timers := [Timer.mk 7 100 (TimerAction.refetchArm 0),
               Timer.mk 9 50 (TimerAction.expire 1)] }

/-! Helper lemmas about `cachedDataFor`, shared by several claims. -/

/-- The value `cachedDataFor` returns is its pure projection
`liveCachedResult`. -/
theorem cachedDataFor_fst (now : Nat) (s : BusState K ε δ κ φ) (key : K) :
    (cachedDataFor now s key).1 = liveCachedResult now s key := by
  unfold cachedDataFor liveCachedResult
  rcases h : s.queue key with _ | rec
  · rfl
  · rcases hr : rec.results with _ | res
    · simp [hr]
    · by_cases he : expLive now rec.expiration <;> simp [hr, he]

/-- The lazy-expiration side effect never touches the callback list of any
key. -/
theorem cachedDataFor_callbacks (now : Nat) (s : BusState K ε δ κ φ)
    (key key2 : K) :
    ((cachedDataFor now s key).2.queue key2).map KeyRecord.callbacks =
      (s.queue key2).map KeyRecord.callbacks := by
  unfold cachedDataFor
  rcases h : s.queue key with _ | rec
  · rfl
  · rcases hr : rec.results with _ | res
    · simp [hr]
    · by_cases he : expLive now rec.expiration
      · simp [hr, he]
      · simp only [hr, he, Bool.false_eq_true, if_false]
        by_cases hk : key2 = key
        · subst hk; simp [setKey, h]
        · simp [setKey, hk]

/-- The lazy-expiration side effect preserves every queue size. -/
theorem cachedDataFor_size (now : Nat) (s : BusState K ε δ κ φ)
    (key key2 : K) :
    sizeOfCallbackQueue (cachedDataFor now s key).2 key2 =
      sizeOfCallbackQueue s key2 := by
  have h := cachedDataFor_callbacks now s key key2
  unfold sizeOfCallbackQueue
  rcases h1 : (cachedDataFor now s key).2.queue key2 with _ | r1 <;>
    rcases h2 : s.queue key2 with _ | r2 <;> simp_all

/-- The lazy-expiration side effect leaves the nextTick queue alone. -/
theorem cachedDataFor_scheduled (now : Nat) (s : BusState K ε δ κ φ)
    (key : K) :
    (cachedDataFor now s key).2.scheduled = s.scheduled := by
  unfold cachedDataFor
  rcases h : s.queue key with _ | rec
  · rfl
  · rcases hr : rec.results with _ | res
    · simp [hr]
    · by_cases he : expLive now rec.expiration <;> simp [hr, he]

/-- At the inspected key, `cachedDataFor` either leaves the record alone or
clears exactly its `results` and `expiration` fields. -/
theorem cachedDataFor_queue_self (now : Nat) (s : BusState K ε δ κ φ)
    (key : K) :
    (cachedDataFor now s key).2.queue key = s.queue key ∨
    ∃ rec, s.queue key = some rec ∧
      (cachedDataFor now s key).2.queue key =
        some { rec with results := none, expiration := none } := by
  unfold cachedDataFor
  rcases h : s.queue key with _ | rec
  · left; simp [h]
  · rcases hr : rec.results with _ | res
    · left; simp [hr, h]
    · by_cases he : expLive now rec.expiration
      · left; simp [hr, he, h]
      · right; exact ⟨rec, by simp [h], by simp [hr, he, setKey]⟩

omit [DecidableEq K] in
/-- A positive queue size exposes the record and its nonempty callback
list. -/
theorem size_pos_record (s : BusState K ε δ κ φ) (key : K)
    (hsz : 0 < sizeOfCallbackQueue s key) :
    ∃ rec, s.queue key = some rec ∧ 0 < rec.callbacks.length := by
  unfold sizeOfCallbackQueue at hsz
  rcases h : s.queue key with _ | rec
  · simp [h] at hsz
  · refine ⟨rec, by simp [h], ?_⟩
    simpa [h] using hsz

/-- Branch 1 of `registerFetch`: without `forceUpdate`, a live cached
result short-circuits — return `true` and schedule the callback with the
cached pair. -/
theorem registerFetch_cacheHit (now : Nat) (s : BusState K ε δ κ φ)
    (key : K) (cb : κ) (res : Results ε δ)
    (hres : liveCachedResult now s key = some res) :
    (registerFetch now s key cb false).1 = true ∧
    (registerFetch now s key cb false).2.scheduled =
      s.scheduled ++ [(cb, res.err, res.data)] := by
  have h1 : (cachedDataFor now s key).1 = some res :=
    (cachedDataFor_fst now s key).trans hres
  unfold registerFetch
  simp [h1, cachedDataFor_scheduled]

/-- When the cache-hit branch is skipped, `cachedDataFor` reports no live
result exactly on the branch condition being false. -/
theorem not_hit_fst (now : Nat) (s : BusState K ε δ κ φ) (key : K)
    (force : Bool)
    (hn : ¬(force = false ∧ (liveCachedResult now s key).isSome = true)) :
    (cachedDataFor now s key).1 = none ∨
    (force = true ∧ ∃ res, (cachedDataFor now s key).1 = some res) := by
  rcases hc : (cachedDataFor now s key).1 with _ | res
  · exact Or.inl rfl
  · right
    refine ⟨?_, res, rfl⟩
    cases force with
    | true => rfl
    | false =>
      exfalso
      exact hn ⟨rfl, by rw [← cachedDataFor_fst, hc]; rfl⟩

/-- Branch 2 of `registerFetch`: no cache hit and a nonempty queue — the
callback is appended and the call returns `true`, scheduling nothing. -/
theorem registerFetch_join (now : Nat) (s : BusState K ε δ κ φ) (key : K)
    (cb : κ) (force : Bool)
    (hn : ¬(force = false ∧ (liveCachedResult now s key).isSome = true))
    (hsz : 0 < sizeOfCallbackQueue s key) :
    (registerFetch now s key cb force).1 = true ∧
    (∃ rec rec2, s.queue key = some rec ∧
      (registerFetch now s key cb force).2.queue key = some rec2 ∧
      rec2.callbacks = rec.callbacks ++ [cb]) ∧
    (registerFetch now s key cb force).2.scheduled = s.scheduled := by
  obtain ⟨rec, hrec, hlen⟩ := size_pos_record s key hsz
  have hsched := cachedDataFor_scheduled now s key
  rcases cachedDataFor_queue_self now s key with hq | ⟨rec0, hrec0, hq⟩
  · rw [hrec] at hq
    rcases not_hit_fst now s key force hn with hc | ⟨hf, res, hc⟩
    · unfold registerFetch
      cases force <;>
        simp [hc, hq, hlen, setKey, hsched] <;>
        exact ⟨rec, hrec, rfl⟩
    · subst hf
      unfold registerFetch
      simp [hc, hq, hlen, setKey, hsched]
      exact ⟨rec, hrec, rfl⟩
  · have heq : rec0 = rec := by
      rw [hrec] at hrec0
      exact (Option.some_inj.mp hrec0).symm
    subst heq
    have hlen0 : 0 < ({ rec0 with results := none, expiration := none } :
        KeyRecord ε δ κ φ).callbacks.length := hlen
    rcases not_hit_fst now s key force hn with hc | ⟨hf, res, hc⟩
    · unfold registerFetch
      cases force <;>
        simp [hc, hq, hlen0, setKey, hsched] <;>
        exact ⟨rec0, hrec, rfl⟩
    · subst hf
      unfold registerFetch
      simp [hc, hq, hlen0, setKey, hsched]
      exact ⟨rec0, hrec, rfl⟩

/-- Branch 3 of `registerFetch`: no cache hit and an empty queue — a fresh
record with only the new callback is installed and the call returns
`false`, scheduling nothing. -/
theorem registerFetch_own (now : Nat) (s : BusState K ε δ κ φ) (key : K)
    (cb : κ) (force : Bool)
    (hn : ¬(force = false ∧ (liveCachedResult now s key).isSome = true))
    (hsz : sizeOfCallbackQueue s key = 0) :
    (registerFetch now s key cb force).1 = false ∧
    (registerFetch now s key cb force).2.queue key =
      some { callbacks := [cb] } ∧
    (registerFetch now s key cb force).2.scheduled = s.scheduled := by
  have hsched := cachedDataFor_scheduled now s key
  have hlen : ∀ rec, s.queue key = some rec → rec.callbacks.length = 0 := by
    intro rec hr
    unfold sizeOfCallbackQueue at hsz
    simpa [hr] using hsz
  rcases cachedDataFor_queue_self now s key with hq | ⟨rec0, hrec0, hq⟩
  · rcases hq2 : s.queue key with _ | rec
    · rw [hq2] at hq
      rcases not_hit_fst now s key force hn with hc | ⟨hf, res, hc⟩
      · unfold registerFetch
        cases force <;> simp [hc, hq, setKey, hsched]
      · subst hf
        unfold registerFetch
        simp [hc, hq, setKey, hsched]
    · rw [hq2] at hq
      have hl := hlen rec hq2
      rcases not_hit_fst now s key force hn with hc | ⟨hf, res, hc⟩
      · unfold registerFetch
        cases force <;> simp [hc, hq, hl, setKey, hsched]
      · subst hf
        unfold registerFetch
        simp [hc, hq, hl, setKey, hsched]
  · have hl := hlen rec0 hrec0
    have hl0 : ({ rec0 with results := none, expiration := none } :
        KeyRecord ε δ κ φ).callbacks.length = 0 := hl
    rcases not_hit_fst now s key force hn with hc | ⟨hf, res, hc⟩
    · unfold registerFetch
      cases force <;> simp [hc, hq, hl0, setKey, hsched]
    · subst hf
      unfold registerFetch
      simp [hc, hq, hl0, setKey, hsched]

/-- C1: for every key, `registerFetch(key, callback, forceUpdate)` returns
`true` and schedules the callback with the cached `(error, data)` when
`forceUpdate` is false and a live cached result exists; else returns
`true` and appends the callback to the waiter list when that list is
nonempty; else installs a record whose waiter list is exactly
`[callback]` and returns `false`, making the caller the fetch owner. -/
theorem registerFetch_branch_contract (now : Nat) (s : BusState K ε δ κ φ)
    (key : K) (cb : κ) (force : Bool) :
    (∀ res, force = false → liveCachedResult now s key = some res →
      (registerFetch now s key cb force).1 = true ∧
      (registerFetch now s key cb force).2.scheduled =
        s.scheduled ++ [(cb, res.err, res.data)]) ∧
    (¬(force = false ∧ (liveCachedResult now s key).isSome = true) →
      0 < sizeOfCallbackQueue s key →
      (registerFetch now s key cb force).1 = true ∧
      ∃ rec rec2, s.queue key = some rec ∧
        (registerFetch now s key cb force).2.queue key = some rec2 ∧
        rec2.callbacks = rec.callbacks ++ [cb]) ∧
    (¬(force = false ∧ (liveCachedResult now s key).isSome = true) →
      sizeOfCallbackQueue s key = 0 →
      (registerFetch now s key cb force).1 = false ∧
      (registerFetch now s key cb force).2.queue key =
        some { callbacks := [cb] }) := by
  refine ⟨?_, ?_, ?_⟩
  · intro res hf hres
    subst hf
    exact registerFetch_cacheHit now s key cb res hres
  · intro hn hsz
    obtain ⟨h1, h2, _⟩ := registerFetch_join now s key cb force hn hsz
    exact ⟨h1, h2⟩
  · intro hn hsz
    obtain ⟨h1, h2, _⟩ := registerFetch_own now s key cb force hn hsz
    exact ⟨h1, h2⟩

/-- C1 witness: the three branches evaluated on concrete registries — a
live cache (key 0 of `richBus`), an in-flight fetch (`waitersBus`), and a
fresh key (`emptyBus`). -/
theorem registerFetch_branch_contract_witness :
    ((registerFetch 0 richBus 0 5 false).1 = true ∧
      (registerFetch 0 richBus 0 5 false).2.scheduled = [(5, 0, 42)]) ∧
    ((registerFetch 0 waitersBus 0 5 false).1 = true) ∧
    ((registerFetch 0 emptyBus 0 5 false).1 = false ∧
      (registerFetch 0 emptyBus 0 5 false).2.queue 0 =
        some { callbacks := [5] }) := by
  refine ⟨⟨?_, ?_⟩, ?_, ?_⟩
  · exact ((registerFetch_branch_contract 0 richBus 0 5 false).1 ⟨0, 42⟩
      rfl (by decide)).1
  · have h := ((registerFetch_branch_contract 0 richBus 0 5 false).1 ⟨0, 42⟩
      rfl (by decide)).2
    simpa [richBus, busWith] using h
  · exact ((registerFetch_branch_contract 0 waitersBus 0 5 false).2.1
      (by decide) (by decide)).1
  · exact (registerFetch_branch_contract 0 emptyBus 0 5 false).2.2
      (by decide) (by decide)

/-- C5: with `forceUpdate = true` the cache-hit branch is never taken —
nothing is scheduled synchronously from the cache; with no fetch in flight
the call returns `false` (the forcing caller becomes the fetch owner) even
if a live cached result exists, and with a nonempty waiter list it returns
`true` and appends the callback instead of granting ownership. -/
theorem registerFetch_force_contract (now : Nat) (s : BusState K ε δ κ φ)
    (key : K) (cb : κ) :
    (registerFetch now s key cb true).2.scheduled = s.scheduled ∧
    (sizeOfCallbackQueue s key = 0 →
      (registerFetch now s key cb true).1 = false) ∧
    (0 < sizeOfCallbackQueue s key →
      (registerFetch now s key cb true).1 = true ∧
      ∃ rec rec2, s.queue key = some rec ∧
        (registerFetch now s key cb true).2.queue key = some rec2 ∧
        rec2.callbacks = rec.callbacks ++ [cb]) := by
  have hn : ¬((true : Bool) = false ∧
      (liveCachedResult now s key).isSome = true) := by simp
  refine ⟨?_, ?_, ?_⟩
  · rcases Nat.eq_zero_or_pos (sizeOfCallbackQueue s key) with hsz | hsz
    · exact (registerFetch_own now s key cb true hn hsz).2.2
    · exact (registerFetch_join now s key cb true hn hsz).2.2
  · intro hsz
    exact (registerFetch_own now s key cb true hn hsz).1
  · intro hsz
    obtain ⟨h1, h2, _⟩ := registerFetch_join now s key cb true hn hsz
    exact ⟨h1, h2⟩

/-- C5 witness: forcing on a key with a live indefinite cache (`richBus`)
returns `false`, and forcing while a fetch is in flight (`waitersBus`)
returns `true`. -/
theorem registerFetch_force_contract_witness :
    (registerFetch 0 richBus 0 5 true).2.scheduled = [] ∧
    (registerFetch 0 richBus 0 5 true).1 = false ∧
    (registerFetch 0 waitersBus 0 5 true).1 = true := by
  refine ⟨?_, ?_, ?_⟩
  · have h := (registerFetch_force_contract 0 richBus 0 5).1
    simpa [richBus, busWith] using h
  · exact (registerFetch_force_contract 0 richBus 0 5).2.1 (by decide)
  · exact ((registerFetch_force_contract 0 waitersBus 0 5).2.2 (by decide)).1

/-- C10: whenever `registerFetch` returns `false`, the key's registry
entry has been replaced by a brand-new record holding only
`callbacks = [callback]` — every other field (cached results, expiration,
refetch interval, refetch function, refetch timer handle) is at its absent
default, whatever the previous record held. -/
theorem registerFetch_false_overwrites (now : Nat) (s : BusState K ε δ κ φ)
    (key : K) (cb : κ) (force : Bool)
    (hfalse : (registerFetch now s key cb force).1 = false) :
    (registerFetch now s key cb force).2.queue key =
      some { callbacks := [cb] } := by
  by_cases hn : force = false ∧ (liveCachedResult now s key).isSome = true
  · obtain ⟨hf, hres⟩ := hn
    obtain ⟨res, hres⟩ := Option.isSome_iff_exists.mp hres
    subst hf
    have := (registerFetch_cacheHit now s key cb res hres).1
    rw [this] at hfalse
    cases hfalse
  · rcases Nat.eq_zero_or_pos (sizeOfCallbackQueue s key) with hsz | hsz
    · exact (registerFetch_own now s key cb force hn hsz).2.1
    · have := (registerFetch_join now s key cb force hn hsz).1
      rw [this] at hfalse
      cases hfalse

/-- C10 witness: a forced registration on key 0 of `richBus` — which holds
a live indefinite cached result, a refetch interval, a refetch function
and an armed refetch timer handle — returns `false` and leaves only the
fresh one-waiter record behind. -/
theorem registerFetch_false_overwrites_witness :
    (registerFetch 0 richBus 0 5 true).2.queue 0 =
      some { callbacks := [5] } :=
  registerFetch_false_overwrites 0 richBus 0 5 true (by decide)

/-- Successful `completeFetch` path: no error is raised, the nextTick
queue gains every waiter paired with `(err, data)` in registration order,
and afterwards no callbacks remain queued at `key`. -/
theorem completeFetch_drain (now : Nat) (s : BusState K ε δ κ φ) (key : K)
    (err : ε) (data : δ) (timeout : Option Int)
    (rec : KeyRecord ε δ κ φ) (hrec : s.queue key = some rec)
    (hsz : 0 < rec.callbacks.length) :
    (completeFetch now s key err data timeout).2 = none ∧
    (completeFetch now s key err data timeout).1.scheduled =
      s.scheduled ++ rec.callbacks.map (fun cb => (cb, err, data)) ∧
    sizeOfCallbackQueue (completeFetch now s key err data timeout).1 key
      = 0 := by
  have hlen : ¬ rec.callbacks.length = 0 := by omega
  unfold completeFetch
  by_cases hi : intervalTruthy rec.fetchInterval <;>
    by_cases ht : timeoutTruthy timeout <;>
      by_cases hp : 0 < timeout.getD 0 <;>
        simp [hrec, hlen, hi, ht, hp, sizeOfCallbackQueue, setKey, delKey]

/-- On the error path (no waiters at `key`) `completeFetch` raises the
no-registered-callbacks error and leaves the state untouched. -/
theorem completeFetch_error (now : Nat) (s : BusState K ε δ κ φ) (key : K)
    (err : ε) (data : δ) (timeout : Option Int)
    (hsz : sizeOfCallbackQueue s key = 0) :
    completeFetch now s key err data timeout =
      (s, some (BusErr.noCallbacks key)) := by
  unfold completeFetch
  rcases h : s.queue key with _ | rec
  · simp [h]
  · have hlen : rec.callbacks.length = 0 := by
      unfold sizeOfCallbackQueue at hsz
      simpa [h] using hsz
    simp [h, hlen]

/-- C2: `completeFetch(key, error, data, retention)` raises the fatal
no-registered-callbacks error carrying `key` if and only if the waiter
list for `key` is empty, and on that error path the registry state is
returned unchanged. -/
theorem completeFetch_error_contract (now : Nat) (s : BusState K ε δ κ φ)
    (key : K) (err : ε) (data : δ) (timeout : Option Int) :
    ((completeFetch now s key err data timeout).2 =
        some (BusErr.noCallbacks key) ↔ sizeOfCallbackQueue s key = 0) ∧
    (sizeOfCallbackQueue s key = 0 →
      (completeFetch now s key err data timeout).1 = s) := by
  constructor
  · constructor
    · intro he
      by_contra hsz
      obtain ⟨rec, hrec, hlen⟩ :=
        size_pos_record s key (Nat.pos_of_ne_zero hsz)
      have h0 :=
        (completeFetch_drain now s key err data timeout rec hrec hlen).1
      rw [h0] at he
      cases he
    · intro hsz
      rw [completeFetch_error now s key err data timeout hsz]
  · intro hsz
    rw [completeFetch_error now s key err data timeout hsz]

/-- C2 witness: completing key 0 of the empty registry raises the error
carrying key 0 and changes nothing, while completing a key with two
waiters raises nothing. -/
theorem completeFetch_error_contract_witness :
    ((completeFetch 0 emptyBus 0 7 8 none).2 =
        some (BusErr.noCallbacks 0) ∧
      (completeFetch 0 emptyBus 0 7 8 none).1 = emptyBus) ∧
    ¬ (completeFetch 0 waitersBus 0 7 8 none).2 =
        some (BusErr.noCallbacks 0) := by
  refine ⟨⟨?_, ?_⟩, ?_⟩
  · exact (completeFetch_error_contract 0 emptyBus 0 7 8 none).1.mpr
      (by decide)
  · exact (completeFetch_error_contract 0 emptyBus 0 7 8 none).2 (by decide)
  · intro he
    have h2 := (completeFetch_error_contract 0 waitersBus 0 7 8 none).1.mp he
    exact absurd h2 (by decide)

/-- C3: completing a key with nonempty waiters schedules each registered
callback exactly once with exactly `(error, data)`, in registration order
(the nextTick queue gains precisely the waiter list mapped to that pair),
raises nothing, and no callback runs synchronously: by the time any
drained callback executes, `sizeOfCallbackQueue(key)` is already `0`. -/
theorem completeFetch_drain_contract (now : Nat) (s : BusState K ε δ κ φ)
    (key : K) (err : ε) (data : δ) (timeout : Option Int)
    (hsz : 0 < sizeOfCallbackQueue s key) :
    ∃ rec, s.queue key = some rec ∧
      (completeFetch now s key err data timeout).2 = none ∧
      (completeFetch now s key err data timeout).1.scheduled =
        s.scheduled ++ rec.callbacks.map (fun cb => (cb, err, data)) ∧
      sizeOfCallbackQueue (completeFetch now s key err data timeout).1 key
        = 0 := by
  obtain ⟨rec, hrec, hlen⟩ := size_pos_record s key hsz
  exact ⟨rec, hrec,
    completeFetch_drain now s key err data timeout rec hrec hlen⟩

/-- C3 witness: completing key 0 of `waitersBus` (waiters `[1, 2]`, empty
nextTick queue) queues exactly `(1, 7, 8)` then `(2, 7, 8)` and leaves the
waiter count at zero. -/
theorem completeFetch_drain_contract_witness :
    ∃ rec, waitersBus.queue 0 = some rec ∧
      (completeFetch 0 waitersBus 0 7 8 none).2 = none ∧
      (completeFetch 0 waitersBus 0 7 8 none).1.scheduled =
        waitersBus.scheduled ++
          rec.callbacks.map (fun cb => (cb, 7, 8)) ∧
      sizeOfCallbackQueue (completeFetch 0 waitersBus 0 7 8 none).1 0
        = 0 :=
  completeFetch_drain_contract 0 waitersBus 0 7 8 none (by decide)

/-- C4 (code bug): the source's comments state that a retention of
`timeout <= 0` keeps the data forever, but the guard `if (timeout)`
treats `0` as falsy, so a zero retention deletes the record and caches
nothing, while `-1` does cache indefinitely.  Evaluated at the failing
input: two waiters at key 0, `completeFetch(0, 7, 8, 0)`. -/
theorem completeFetch_zero_retention_bug :
    sizeOfCallbackQueue waitersBus 0 = 2 ∧
    (completeFetch 0 waitersBus 0 7 8 (some 0)).2 = none ∧
    (completeFetch 0 waitersBus 0 7 8 (some 0)).1.queue 0 = none ∧
    liveCachedResult 0 (completeFetch 0 waitersBus 0 7 8 (some 0)).1 0
      = none ∧
    liveCachedResult 0 (completeFetch 0 waitersBus 0 7 8 (some (-1))).1 0
      = some ⟨7, 8⟩ := by decide

/-- Positive retention stores the pair with `expiresAt = now + d` and arms
an expiration timer whose action is `expireCachedData key` after `d`. -/
theorem completeFetch_pos_store (now : Nat) (s : BusState K ε δ κ φ)
    (key : K) (err : ε) (data : δ) (d : Int) (hd : 0 < d)
    (rec : KeyRecord ε δ κ φ) (hrec : s.queue key = some rec)
    (hsz : 0 < rec.callbacks.length) :
    (∃ rec2,
      (completeFetch now s key err data (some d)).1.queue key = some rec2 ∧
      rec2.results = some ⟨err, data⟩ ∧
      rec2.expiration = some (some (now + d.toNat)) ∧
      rec2.callbacks = []) ∧
    ∃ tid, Timer.mk tid d.toNat (TimerAction.expire key) ∈
      (completeFetch now s key err data (some d)).1.timers := by
  have hlen : ¬ rec.callbacks.length = 0 := by omega
  have ht : timeoutTruthy (some d) = true := by
    simp [timeoutTruthy]
    omega
  unfold completeFetch
  by_cases hi : intervalTruthy rec.fetchInterval <;>
    simp [hrec, hlen, hi, ht, hd, setKey]

/-- Reading a cached pair whose expiration timestamp is strictly in the
future returns it and changes nothing. -/
theorem cachedDataFor_live_read (now T : Nat) (s : BusState K ε δ κ φ)
    (key : K) (rec : KeyRecord ε δ κ φ) (res : Results ε δ)
    (hrec : s.queue key = some rec) (hres : rec.results = some res)
    (hexp : rec.expiration = some (some T)) (hlt : now < T) :
    cachedDataFor now s key = (some res, s) := by
  unfold cachedDataFor
  simp [hrec, hres, hexp, expLive, hlt]

/-- Reading a cached pair whose expiration timestamp has passed clears the
stored result and its expiration and returns none, leaving the rest of
the record. -/
theorem cachedDataFor_stale_read (now T : Nat) (s : BusState K ε δ κ φ)
    (key : K) (rec : KeyRecord ε δ κ φ) (res : Results ε δ)
    (hrec : s.queue key = some rec) (hres : rec.results = some res)
    (hexp : rec.expiration = some (some T)) (hle : T ≤ now) :
    (cachedDataFor now s key).1 = none ∧
    (cachedDataFor now s key).2.queue key =
      some { rec with results := none, expiration := none } := by
  have hlt : ¬ now < T := by omega
  unfold cachedDataFor
  simp [hrec, hres, hexp, expLive, hlt, setKey]

/-- The expiration timer body clears `results` alone: `expiration` keeps
its stale value and the record stays in the registry. -/
theorem expireCachedData_clears_results (s : BusState K ε δ κ φ) (key : K)
    (rec : KeyRecord ε δ κ φ) (res : Results ε δ)
    (hrec : s.queue key = some rec) (hres : rec.results = some res) :
    (expireCachedData s key).queue key = some { rec with results := none } := by
  unfold expireCachedData
  simp [hrec, hres, setKey]

/-- C6 counterexample: on the record of `expiredBus` (cached `(0, 42)`,
`expiresAt = 5`) the armed timer body `expireCachedData` clears the
cached result but leaves `expiresAt = 5` in place, contradicting the
claim that the timer clears `cachedResult` and `expiresAt`. -/
theorem expire_timer_keeps_expiresAt :
    expiredBus.queue 0 =
      some { callbacks := [], expiration := some (some 5),
             results := some ⟨0, 42⟩ } ∧
    (expireCachedData expiredBus 0).queue 0 =
      some { callbacks := [], expiration := some (some 5) } := by decide

/-- C6 as amended: after `completeFetch` with positive retention `d` the
stored pair has `expiresAt = now + d` and an expiration timer is armed;
`cachedDataFor` returns the pair while `expiresAt` is in the future and,
once it has passed, clears the stored result and its expiration and
returns none — and when the armed timer fires it clears `cachedResult`
only (leaving `expiresAt` in place) without deleting the key record. -/
theorem retention_expiration_contract (now : Nat) (s : BusState K ε δ κ φ)
    (key : K) (err : ε) (data : δ) (d : Int) (hd : 0 < d)
    (rec : KeyRecord ε δ κ φ) (hrec : s.queue key = some rec)
    (hsz : 0 < rec.callbacks.length) :
    ((∃ rec2,
      (completeFetch now s key err data (some d)).1.queue key = some rec2 ∧
      rec2.results = some ⟨err, data⟩ ∧
      rec2.expiration = some (some (now + d.toNat)) ∧
      rec2.callbacks = []) ∧
     ∃ tid, Timer.mk tid d.toNat (TimerAction.expire key) ∈
      (completeFetch now s key err data (some d)).1.timers) ∧
    (∀ (s2 : BusState K ε δ κ φ) (rec2 : KeyRecord ε δ κ φ)
        (res : Results ε δ) (T now2 : Nat),
      s2.queue key = some rec2 → rec2.results = some res →
      rec2.expiration = some (some T) → now2 < T →
      cachedDataFor now2 s2 key = (some res, s2)) ∧
    (∀ (s2 : BusState K ε δ κ φ) (rec2 : KeyRecord ε δ κ φ)
        (res : Results ε δ) (T now2 : Nat),
      s2.queue key = some rec2 → rec2.results = some res →
      rec2.expiration = some (some T) → T ≤ now2 →
      (cachedDataFor now2 s2 key).1 = none ∧
      (cachedDataFor now2 s2 key).2.queue key =
        some { rec2 with results := none, expiration := none }) ∧
    (∀ (s2 : BusState K ε δ κ φ) (rec2 : KeyRecord ε δ κ φ)
        (res : Results ε δ),
      s2.queue key = some rec2 → rec2.results = some res →
      (expireCachedData s2 key).queue key =
        some { rec2 with results := none }) := by
  refine ⟨completeFetch_pos_store now s key err data d hd rec hrec hsz,
    ?_, ?_, ?_⟩
  · intro s2 rec2 res T now2 h1 h2 h3 h4
    exact cachedDataFor_live_read now2 T s2 key rec2 res h1 h2 h3 h4
  · intro s2 rec2 res T now2 h1 h2 h3 h4
    exact cachedDataFor_stale_read now2 T s2 key rec2 res h1 h2 h3 h4
  · intro s2 rec2 res h1 h2
    exact expireCachedData_clears_results s2 key rec2 res h1 h2

/-- C6 witness: completing key 0 of `waitersBus` at time 5 with retention
100 stores `(7, 8)` with `expiresAt = 105` and arms the expire timer; the
read at time 50 returns the pair, the read at time 105 returns none. -/
theorem retention_expiration_contract_witness :
    ((∃ rec2,
      (completeFetch 5 waitersBus 0 7 8 (some 100)).1.queue 0 = some rec2 ∧
      rec2.results = some ⟨7, 8⟩ ∧
      rec2.expiration = some (some 105) ∧
      rec2.callbacks = []) ∧
     ∃ tid, Timer.mk tid 100 (TimerAction.expire 0) ∈
      (completeFetch 5 waitersBus 0 7 8 (some 100)).1.timers) ∧
    cachedDataFor 50 (completeFetch 5 waitersBus 0 7 8 (some 100)).1 0 =
      (some ⟨7, 8⟩, (completeFetch 5 waitersBus 0 7 8 (some 100)).1) ∧
    (cachedDataFor 105 (completeFetch 5 waitersBus 0 7 8 (some 100)).1 0).1
      = none := by
  have h := retention_expiration_contract 5 waitersBus 0 7 8 100
    (by decide) { callbacks := [1, 2] } (by decide) (by decide)
  refine ⟨?_, ?_, ?_⟩
  · simpa using h.1
  · exact h.2.1 (completeFetch 5 waitersBus 0 7 8 (some 100)).1
      { callbacks := [], results := some ⟨7, 8⟩,
        expiration := some (some 105) } ⟨7, 8⟩ 105 50
      (by decide) (by decide) (by decide) (by decide)
  · exact (h.2.2.1 (completeFetch 5 waitersBus 0 7 8 (some 100)).1
      { callbacks := [], results := some ⟨7, 8⟩,
        expiration := some (some 105) } ⟨7, 8⟩ 105 105
      (by decide) (by decide) (by decide) (by decide)).1

/-- C7 counterexample: a reachable run — register interest in key 0,
complete with retention 5, then read at time 10 — after which the
registry still holds a record for key 0 although the key has no waiters,
no live cached result and no refetch configuration, contradicting the
claimed existence invariant for the lazy-expiration read path. -/
theorem registry_invariant_counterexample :
    (cachedDataFor 10
        (completeFetch 0 (registerFetch 0 emptyBus 0 1 false).2 0 7 8
          (some 5)).1 0).2.queue 0 = some { callbacks := [] } ∧
    sizeOfCallbackQueue (cachedDataFor 10
        (completeFetch 0 (registerFetch 0 emptyBus 0 1 false).2 0 7 8
          (some 5)).1 0).2 0 = 0 ∧
    liveCachedResult 10 (cachedDataFor 10
        (completeFetch 0 (registerFetch 0 emptyBus 0 1 false).2 0 7 8
          (some 5)).1 0).2 0 = none ∧
    hasRefetch (cachedDataFor 10
        (completeFetch 0 (registerFetch 0 emptyBus 0 1 false).2 0 7 8
          (some 5)).1 0).2 0 = false := by decide

/-- C7 as amended: the forward direction of the existence invariant holds
— a key with nonempty waiters, a live cached result or an active refetch
configuration has a record — but the converse fails: the lazy-expiration
read path of `cachedDataFor` clears an expired result yet leaves the
key's record in the registry, so a record with empty waiters, no cached
result and no refetch can remain behind. -/
theorem registry_invariant_weak (now : Nat) (s : BusState K ε δ κ φ)
    (key : K) :
    ((0 < sizeOfCallbackQueue s key ∨
        (liveCachedResult now s key).isSome = true ∨
        hasRefetch s key = true) →
      (s.queue key).isSome = true) ∧
    (∀ rec, s.queue key = some rec → rec.callbacks = [] →
      rec.fetchInterval = none → rec.results.isSome = true →
      expLive now rec.expiration = false →
      (cachedDataFor now s key).1 = none ∧
      (cachedDataFor now s key).2.queue key =
        some { rec with results := none, expiration := none }) := by
  constructor
  · intro h
    rcases hq : s.queue key with _ | rec
    · exfalso
      rcases h with h | h | h
      · unfold sizeOfCallbackQueue at h
        simp [hq] at h
      · unfold liveCachedResult at h
        simp [hq] at h
      · unfold hasRefetch at h
        simp [hq] at h
    · rfl
  · intro rec hrec hcb hfi hres hexp
    obtain ⟨res, hres⟩ := Option.isSome_iff_exists.mp hres
    unfold cachedDataFor
    simp [hrec, hres, hexp, setKey]

/-- C7 witness: the forward direction evaluated on `waitersBus`
(waiters nonempty, record present), and the dangling-record conclusion
evaluated on `expiredBus` at time 10. -/
theorem registry_invariant_weak_witness :
    (waitersBus.queue 0).isSome = true ∧
    (cachedDataFor 10 expiredBus 0).1 = none ∧
    (cachedDataFor 10 expiredBus 0).2.queue 0 = some { callbacks := [] } := by
  refine ⟨?_, ?_, ?_⟩
  · exact (registry_invariant_weak 0 waitersBus 0).1 (Or.inl (by decide))
  · exact ((registry_invariant_weak 10 expiredBus 0).2
      { callbacks := [], expiration := some (some 5),
        results := some ⟨0, 42⟩ }
      (by decide) (by decide) (by decide) (by decide) (by decide)).1
  · have h := ((registry_invariant_weak 10 expiredBus 0).2
      { callbacks := [], expiration := some (some 5),
        results := some ⟨0, 42⟩ }
      (by decide) (by decide) (by decide) (by decide) (by decide)).2
    simpa using h

/-- The lazy-expiration side effect never touches the fetch-invocation
log. -/
theorem cachedDataFor_fetchCalls (now : Nat) (s : BusState K ε δ κ φ)
    (key : K) :
    (cachedDataFor now s key).2.fetchCalls = s.fetchCalls := by
  unfold cachedDataFor
  rcases h : s.queue key with _ | rec
  · rfl
  · rcases hr : rec.results with _ | res
    · simp [hr]
    · by_cases he : expLive now rec.expiration <;> simp [hr, he]

/-- Registration never invokes a fetch function. -/
theorem registerFetch_fetchCalls (now : Nat) (s : BusState K ε δ κ φ)
    (key : K) (cb : κ) (force : Bool) :
    (registerFetch now s key cb force).2.fetchCalls = s.fetchCalls := by
  have hfc := cachedDataFor_fetchCalls now s key
  unfold registerFetch
  rcases hc : (cachedDataFor now s key).1 with _ | res
  · rcases hq : (cachedDataFor now s key).2.queue key with _ | rec
    · cases force <;> simp [hc, hq, hfc]
    · cases force <;> by_cases hl : rec.callbacks.length > 0 <;>
        simp [hc, hq, hl, hfc]
  · cases force
    · simp [hc, hfc]
    · rcases hq : (cachedDataFor now s key).2.queue key with _ | rec
      · simp [hc, hq, hfc]
      · by_cases hl : rec.callbacks.length > 0 <;> simp [hc, hq, hl, hfc]

/-- Non-positive truthy retention (a negative integer) stores the pair
with a `null` expiration: retained indefinitely, no timer armed for it. -/
theorem completeFetch_neg_store (now : Nat) (s : BusState K ε δ κ φ)
    (key : K) (err : ε) (data : δ) (d : Int) (hd : d < 0)
    (rec : KeyRecord ε δ κ φ) (hrec : s.queue key = some rec)
    (hsz : 0 < rec.callbacks.length) :
    ∃ rec2,
      (completeFetch now s key err data (some d)).1.queue key = some rec2 ∧
      rec2.results = some ⟨err, data⟩ ∧
      rec2.expiration = some none ∧
      rec2.callbacks = [] := by
  have hlen : ¬ rec.callbacks.length = 0 := by omega
  have ht : timeoutTruthy (some d) = true := by
    simp [timeoutTruthy]
    omega
  have hp : ¬ ((0 : Int) < d) := by omega
  unfold completeFetch
  by_cases hi : intervalTruthy rec.fetchInterval <;>
    simp [hrec, hlen, hi, ht, hp, setKey]

/-- C8: `scheduleFetch(key, interval, fetchFunction)` returns `false` with
no side effects when a fetch is in flight for `key`; otherwise it records
the interval and fetch function on the key's record, invokes
`fetchFunction` exactly once immediately, and returns `true` — and the
completion callback it passes is exactly `completeFetch` with retention
`-1`, which stores the delivered pair with a `null` (indefinite)
expiration. -/
theorem scheduleFetch_contract (now : Nat) (s : BusState K ε δ κ φ)
    (key : K) (interval : Nat) (ff : φ) (nullFn : κ) :
    (0 < sizeOfCallbackQueue s key →
      scheduleFetch now s key interval ff nullFn = (some false, s, none)) ∧
    (sizeOfCallbackQueue s key = 0 →
      (scheduleFetch now s key interval ff nullFn).1 = some true ∧
      (scheduleFetch now s key interval ff nullFn).2.2 = none ∧
      (scheduleFetch now s key interval ff nullFn).2.1.queue key =
        some { callbacks := [nullFn], fetchInterval := some interval,
               fetchFunction := some ff } ∧
      (scheduleFetch now s key interval ff nullFn).2.1.fetchCalls =
        s.fetchCalls ++ [(ff, key)]) ∧
    (∀ (now2 : Nat) (s2 : BusState K ε δ κ φ) (e : ε) (d : δ),
      scheduleFetchCompletion now2 key e d s2 =
        completeFetch now2 s2 key e d (some (-1))) ∧
    (∀ (now2 : Nat) (s2 : BusState K ε δ κ φ) (e : ε) (d : δ)
        (rec2 : KeyRecord ε δ κ φ),
      s2.queue key = some rec2 → 0 < rec2.callbacks.length →
      ∃ rec3,
        (scheduleFetchCompletion now2 key e d s2).1.queue key = some rec3 ∧
        rec3.results = some ⟨e, d⟩ ∧
        rec3.expiration = some none) := by
  refine ⟨?_, ?_, ?_, ?_⟩
  · intro h
    unfold scheduleFetch
    simp [h]
  · intro hsz
    have hn : ¬((true : Bool) = false ∧
        (liveCachedResult now s key).isSome = true) := by simp
    obtain ⟨h1, h2, _⟩ := registerFetch_own now s key nullFn true hn hsz
    have hns : ¬ 0 < sizeOfCallbackQueue s key := by omega
    unfold scheduleFetch
    simp [hns, h1, h2, setKey, registerFetch_fetchCalls]
  · intro now2 s2 e d
    rfl
  · intro now2 s2 e d rec2 h1 h2
    obtain ⟨rec3, hq, hr, he, _⟩ :=
      completeFetch_neg_store now2 s2 key e d (-1) (by omega) rec2 h1 h2
    exact ⟨rec3, hq, hr, he⟩

/-- C8 witness: scheduling on key 0 while `waitersBus` has a fetch in
flight fails with no side effects; scheduling on the empty registry
installs the record, logs one fetch invocation, and the completion
callback evaluated on `waitersBus` stores `(7, 8)` indefinitely. -/
theorem scheduleFetch_contract_witness :
    scheduleFetch 0 waitersBus 0 500 3 9 = (some false, waitersBus, none) ∧
    ((scheduleFetch 0 emptyBus 0 500 3 9).1 = some true ∧
     (scheduleFetch 0 emptyBus 0 500 3 9).2.2 = none ∧
     (scheduleFetch 0 emptyBus 0 500 3 9).2.1.queue 0 =
       some { callbacks := [9], fetchInterval := some 500,
              fetchFunction := some 3 } ∧
     (scheduleFetch 0 emptyBus 0 500 3 9).2.1.fetchCalls =
       emptyBus.fetchCalls ++ [(3, 0)]) ∧
    ∃ rec3, (scheduleFetchCompletion 2 0 7 8 waitersBus).1.queue 0 =
        some rec3 ∧
      rec3.results = some ⟨7, 8⟩ ∧
      rec3.expiration = some none := by
  refine ⟨?_, ?_, ?_⟩
  · exact (scheduleFetch_contract 0 waitersBus 0 500 3 9).1 (by decide)
  · exact (scheduleFetch_contract 0 emptyBus 0 500 3 9).2.1 (by decide)
  · exact (scheduleFetch_contract 2 waitersBus 0 500 3 9).2.2.2 2 waitersBus
      7 8 { callbacks := [1, 2] } (by decide) (by decide)

/-- C9 counterexample: with no waiters for the key, `cancelScheduleFetch`
returns JS `undefined` — not a boolean — both when an armed refetch timer
exists (`timerBus`) and when there is nothing to cancel (`emptyBus`),
contradicting the claim that every path returns a definite boolean. -/
theorem cancelScheduleFetch_counterexample :
    sizeOfCallbackQueue timerBus 0 = 0 ∧
    (cancelScheduleFetch timerBus 0).1 = none ∧
    (cancelScheduleFetch emptyBus 0).1 = none := by decide

/-- C9 as amended: `cancelScheduleFetch(key)` returns `false` when
waiters are nonempty (leaving the registry unchanged) and otherwise
returns no value (JS `undefined`, not a boolean); in the latter case it
cancels the pending refetch timer and removes the key's record entirely
when a timer handle exists, and is a registry no-op when no timer is
active. -/
theorem cancelScheduleFetch_contract (s : BusState K ε δ κ φ) (key : K) :
    (0 < sizeOfCallbackQueue s key →
      cancelScheduleFetch s key = (some false, s)) ∧
    (sizeOfCallbackQueue s key = 0 →
      (cancelScheduleFetch s key).1 = none) ∧
    (∀ rec h, s.queue key = some rec → rec.fetchTimer = some h →
      sizeOfCallbackQueue s key = 0 →
      (cancelScheduleFetch s key).2.queue key = none ∧
      (cancelScheduleFetch s key).2.timers =
        s.timers.filter (fun t => t.id ≠ h)) ∧
    ((∀ rec, s.queue key = some rec → rec.fetchTimer = none) →
      (cancelScheduleFetch s key).2 = s) := by
  refine ⟨?_, ?_, ?_, ?_⟩
  · intro h
    unfold cancelScheduleFetch
    simp [h]
  · intro hsz
    have hns : ¬ 0 < sizeOfCallbackQueue s key := by omega
    unfold cancelScheduleFetch
    rcases hq : s.queue key with _ | rec
    · simp [hns, hq]
    · rcases hft : rec.fetchTimer with _ | hdl <;> simp [hns, hq, hft]
  · intro rec hdl hrec hft hsz
    have hns : ¬ 0 < sizeOfCallbackQueue s key := by omega
    unfold cancelScheduleFetch
    simp [hns, hrec, hft, delKey]
  · intro hall
    unfold cancelScheduleFetch
    by_cases h : 0 < sizeOfCallbackQueue s key
    · simp [h]
    · rcases hq : s.queue key with _ | rec
      · simp [h, hq]
      · have hft := hall rec hq
        simp [h, hq, hft]

/-- C9 witness: cancelling amid a fetch (`waitersBus`) fails with `false`
and no change; on `timerBus` (armed handle 7, no waiters) the call yields
no boolean, deletes the record and drops exactly timer 7; on `emptyBus`
it is a no-op. -/
theorem cancelScheduleFetch_contract_witness :
    cancelScheduleFetch waitersBus 0 = (some false, waitersBus) ∧
    (cancelScheduleFetch timerBus 0).1 = none ∧
    ((cancelScheduleFetch timerBus 0).2.queue 0 = none ∧
      (cancelScheduleFetch timerBus 0).2.timers =
        timerBus.timers.filter (fun t => t.id ≠ 7)) ∧
    (cancelScheduleFetch emptyBus 0).2 = emptyBus := by
  refine ⟨?_, ?_, ?_, ?_⟩
  · exact (cancelScheduleFetch_contract waitersBus 0).1 (by decide)
  · exact (cancelScheduleFetch_contract timerBus 0).2.1 (by decide)
  · exact (cancelScheduleFetch_contract timerBus 0).2.2.1 timerRec 7
      (by decide) (by decide) (by decide)
  · exact (cancelScheduleFetch_contract emptyBus 0).2.2.2
      (fun rec hrec => by simp [emptyBus] at hrec)

end CDB
